import Mathlib

/-!
Shallow embedding of `src/snake/snake.c` (a terminal Snake game).

Correspondence with the C source:
* The C globals `gameOver, score, headX, headY, foodX, foodY, tailX[100],
  tailY[100], nTail, dir` become the fields of `GameState`; the two parallel
  coordinate arrays are modelled as one list of pairs (the C shift loop always
  assigns `tailX[i]` and `tailY[i]` together), kept at its full capacity of
  100 slots so that slots beyond `nTail` retain stale values exactly as the C
  arrays do.  `WIDTH = 40`, `HEIGHT = 20`, so `WIDTH * HEIGHT = 800`.
* `rand()` is modelled by an explicit stream of samples (`List Nat`); each
  `rand()` call consumes one element (an absent element reads as 0).  Functions
  that call `rand()` take the stream and return the unconsumed rest.
* Array reads `tailX[i]` become `List.getD i` with default `(0, 0)`; array
  writes become `List.set` (a no-op above the 100-slot capacity, where the C
  program would overrun its arrays — behaviour the design document leaves
  undefined).
-/

namespace SnakeGame

/-- The C `enum eDirection { STOP = 0, LEFT, RIGHT, UP, DOWN }`. -/
inductive Direction where
  | STOP : Direction
  | LEFT : Direction
  | RIGHT : Direction
  | UP : Direction
  | DOWN : Direction
deriving DecidableEq

/-- One key event as classified by the `switch` in the C `Input` function:
the three key codes for each arrow collapse to one constructor, `q`/`Q` to
`KQuit`, and any other key to `KOther`. -/
inductive Key where
  | KLeft : Key
  | KRight : Key
  | KUp : Key
  | KDown : Key
  | KQuit : Key
  | KOther : Key

/-- The global game-state variables of `snake.c`. -/
structure GameState where
  gameOver : Bool
  score : Nat
  headX : Int
  headY : Int
  foodX : Int
  foodY : Int
  tail : List (Int × Int)
  nTail : Nat
  dir : Direction

/-- C `isPositionOnSnake(x, y)`: true iff `(x, y)` equals the head or one of
the first `nTail` tail slots. -/
def isPositionOnSnake (s : GameState) (x y : Int) : Bool :=
  (s.headX == x && s.headY == y) ||
    (List.range s.nTail).any fun i =>
      ((s.tail.getD i (0, 0)).1 == x) && ((s.tail.getD i (0, 0)).2 == y)

/-- Sample `j` (0-based) of the stream: the C pair of calls
`foodX = (rand() % WIDTH) + 1; foodY = (rand() % HEIGHT) + 1`, reading the
`2*j`-th and `2*j+1`-st stream elements. -/
def sampleAt (rng : List Nat) (j : Nat) : Int × Int :=
  (Int.ofNat ((rng.drop (2 * j)).headD 0 % 40) + 1,
   Int.ofNat ((rng.drop (2 * j)).tail.headD 0 % 20) + 1)

/-- The `do { ... } while` loop of C `PlaceFood`, with its `attempts` counter.
Returns the final food position, the unconsumed random stream, and the final
value of `attempts`.  The loop body samples a position, increments `attempts`,
breaks once `attempts > WIDTH * HEIGHT = 800`, and otherwise repeats while the
sampled position is on the snake.  The counter bounds the iteration count, so
fuel `801 - attempts` suffices and the fuel-exhaustion branch is unreachable
from the entry point `PlaceFood`. -/
def placeFoodLoop (s : GameState) : Nat → List Nat → Nat → (Int × Int) × List Nat × Nat
  | 0, rng, attempts => ((0, 0), rng, attempts)
  | fuel + 1, rng, attempts =>
    let x : Int := Int.ofNat (rng.headD 0 % 40) + 1
    let y : Int := Int.ofNat (rng.tail.headD 0 % 20) + 1
    let rng2 := rng.tail.tail
    let attempts2 := attempts + 1
    if 800 < attempts2 then ((x, y), rng2, attempts2)
    else if isPositionOnSnake s x y then placeFoodLoop s fuel rng2 attempts2
    else ((x, y), rng2, attempts2)

/-- C `PlaceFood()`: run the sampling loop and store the result in
`foodX`/`foodY`. -/
def PlaceFood (s : GameState) (rng : List Nat) : GameState × List Nat :=
  let r := placeFoodLoop s 801 rng 0
  ({ s with foodX := r.1.1, foodY := r.1.2 }, r.2.1)

/-- C `Setup()`: reset `gameOver`, `dir`, the head (to `(WIDTH/2, HEIGHT/2) =
(20, 10)`), `score` and `nTail`, then place the initial food.  The tail
arrays are *not* cleared: slots keep whatever a previous playthrough left in
them. -/
def Setup (s : GameState) (rng : List Nat) : GameState × List Nat :=
  PlaceFood { s with gameOver := false, dir := .STOP,
                     headX := 20, headY := 10, score := 0, nTail := 0 } rng

/-- One `case` of the `switch` in C `Input()`: a direction key overwrites
`dir` unless it is the exact reverse of the stored direction; `q` sets
`gameOver`; any other key is ignored. -/
def InputKey (s : GameState) (k : Key) : GameState :=
  match k with
  | .KLeft => if s.dir ≠ .RIGHT then { s with dir := .LEFT } else s
  | .KRight => if s.dir ≠ .LEFT then { s with dir := .RIGHT } else s
  | .KUp => if s.dir ≠ .DOWN then { s with dir := .UP } else s
  | .KDown => if s.dir ≠ .UP then { s with dir := .DOWN } else s
  | .KQuit => { s with gameOver := true }
  | .KOther => s

/-- C `Input()`: drain all pending key events in order. -/
def InputKeys (s : GameState) (ks : List Key) : GameState :=
  ks.foldl InputKey s

/-- The `switch (dir)` of C `Logic` that offsets the head one cell. -/
def newHeadRaw (s : GameState) : Int × Int :=
  match s.dir with
  | .LEFT => (s.headX - 1, s.headY)
  | .RIGHT => (s.headX + 1, s.headY)
  | .UP => (s.headX, s.headY - 1)
  | .DOWN => (s.headX, s.headY + 1)
  | .STOP => (s.headX, s.headY)

/-- Horizontal wrap of C `Logic` (lines 189-198): the wrap proper
(`> WIDTH → 1`, `< 1 → WIDTH`) followed by the two redundant clamping
`if`s. -/
def wrapX (x : Int) : Int :=
  let x1 := if 40 < x then 1 else if x < 1 then 40 else x
  let x2 := if x1 < 1 then 1 else x1
  if 40 < x2 then 40 else x2

/-- Vertical wrap of C `Logic` (lines 191-198), `HEIGHT = 20`. -/
def wrapY (y : Int) : Int :=
  let y1 := if 20 < y then 1 else if y < 1 then 20 else y
  let y2 := if y1 < 1 then 1 else y1
  if 20 < y2 then 20 else y2

/-- The fully wrapped new head position computed by C `Logic` before any
mutation. -/
def newHead (s : GameState) : Int × Int :=
  (wrapX (newHeadRaw s).1, wrapY (newHeadRaw s).2)

/-- The descending shift loop of C `Logic`
(`for (i = nTail - 1; i > 0; i--) tail[i] = tail[i-1]`), entered with
`i = k`.  Each slot is written before the slot it reads from is reached, so
every read sees the original array. -/
def shiftDown : List (Int × Int) → Nat → List (Int × Int)
  | a, 0 => a
  | a, k + 1 => shiftDown (a.set (k + 1) (a.getD k (0, 0))) k

/-- The complete tail update of C `Logic` (lines 204-211): when the tail is
non-empty, shift slots `nTail-1 .. 1` down and then store the old head in
slot 0; otherwise leave the arrays untouched. -/
def shiftedTail (s : GameState) : List (Int × Int) :=
  if 0 < s.nTail then (shiftDown s.tail (s.nTail - 1)).set 0 (s.headX, s.headY)
  else s.tail

/-- The self-collision scan of C `Logic` (lines 218-223): does `(hx, hy)`
equal one of the first `n` tail slots? -/
def selfCollides (n : Nat) (tl : List (Int × Int)) (hx hy : Int) : Bool :=
  (List.range n).any fun i =>
    ((tl.getD i (0, 0)).1 == hx) && ((tl.getD i (0, 0)).2 == hy)

/-- C `Logic()`: the per-tick update.  Returns the new state and the
unconsumed random stream. -/
def Logic (s : GameState) (rng : List Nat) : GameState × List Nat :=
  if s.dir = .STOP then (s, rng)
  else
    let nh := newHead s
    let willEatFood := (nh.1 == s.foodX) && (nh.2 == s.foodY)
    let tl2 := shiftedTail s
    let s2 : GameState := { s with tail := tl2, headX := nh.1, headY := nh.2 }
    if selfCollides s.nTail tl2 nh.1 nh.2 then ({ s2 with gameOver := true }, rng)
    else if willEatFood then
      PlaceFood { s2 with score := s2.score + 10, nTail := s2.nTail + 1 } rng
    else (s2, rng)

/-- The state of the C globals when `main` starts: zero-initialised statics. -/
def initialState : GameState :=
  { gameOver := false, score := 0, headX := 0, headY := 0, foodX := 0,
    foodY := 0, tail := List.replicate 100 (0, 0), nTail := 0, dir := .STOP }

/-- States the running program can exhibit.  `main` calls `Setup` before the
first iteration; each iteration of the play loop (entered only while
`gameOver` is unset) drains the key buffer and possibly runs one `Logic`
tick; after `gameOver` is set, the only continuation is a restart, which
re-runs `Setup` on the existing globals. -/
inductive Reachable : GameState → Prop where
  | start : ∀ rng, Reachable (Setup initialState rng).1
  | restart : ∀ s rng, Reachable s → s.gameOver = true → Reachable (Setup s rng).1
  | inputs : ∀ s ks, Reachable s → s.gameOver = false → Reachable (InputKeys s ks)
  | tick : ∀ s ks rng, Reachable s → s.gameOver = false →
      Reachable (Logic (InputKeys s ks) rng).1

/-- States reachable during the first playthrough: as `Reachable`, but with
no restart. -/
inductive ReachableFirst : GameState → Prop where
  | start : ∀ rng, ReachableFirst (Setup initialState rng).1
  | inputs : ∀ s ks, ReachableFirst s → s.gameOver = false →
      ReachableFirst (InputKeys s ks)
  | tick : ∀ s ks rng, ReachableFirst s → s.gameOver = false →
      ReachableFirst (Logic (InputKeys s ks) rng).1

/-- Auxiliary invariant carried through the first playthrough: the head stays
on the board, every tail slot at index `≥ nTail` still holds the initial
zero pair, and while the game is not over the head does not coincide with any
counted tail slot. -/
def InvC1 (s : GameState) : Prop :=
  (1 ≤ s.headX ∧ s.headX ≤ 40 ∧ 1 ≤ s.headY ∧ s.headY ≤ 20) ∧
  (∀ i, s.nTail ≤ i → s.tail.getD i (0, 0) = (0, 0)) ∧
  (s.gameOver = false → selfCollides s.nTail s.tail s.headX s.headY = false)

/-- A state one tick from a fatal self-collision, with the food placed on the
cell the head is about to enter: moving Left from `(2, 1)` lands on the shifted
tail slot `(1, 1)`. -/
def wState3 : GameState :=
  ⟨false, 0, 2, 1, 1, 1, [(1, 1), (9, 9)], 2, .LEFT⟩

/-- A two-segment snake about to advance Left, used to exhibit the tail
shift. -/
def wState4 : GameState :=
  ⟨false, 7, 5, 6, 30, 15, [(3, 1), (9, 9)], 2, .LEFT⟩

/-- A snake whose head sits at `(1, 1)`, the cell that the all-zero random
stream samples forever. -/
def cexOccupied : GameState :=
  ⟨false, 0, 1, 1, 0, 0, [], 0, .STOP⟩

/-- Two states that agree everywhere except in the tail slot beyond the
populated region (`nTail = 0`): slot 0 holds `(5, 5)` here. -/
def cexStaleA : GameState :=
  ⟨false, 0, 20, 10, 21, 10, (5, 5) :: List.replicate 99 (0, 0), 0, .RIGHT⟩

/-- As `cexStaleA`, but the stale slot holds `(1, 1)`. -/
def cexStaleB : GameState :=
  ⟨false, 0, 20, 10, 21, 10, (1, 1) :: List.replicate 99 (0, 0), 0, .RIGHT⟩

/-- Another head-at-`(1, 1)` state, used to count the sampling attempts of
the food-placement loop on the all-occupied sample stream. -/
def cexFull : GameState := ⟨false, 0, 1, 1, 3, 3, [], 0, .RIGHT⟩

/-- A head on the right edge moving Right, about to wrap to column 1. -/
def wState8 : GameState := ⟨false, 0, 40, 7, 3, 3, [], 0, .RIGHT⟩

/-- A snake moving Right, about to receive the key sequence Up-then-Left in a
single input drain. -/
def wState10 : GameState := ⟨false, 0, 9, 9, 2, 2, [], 0, .RIGHT⟩

/-- First playthrough, after `Setup`: head `(20, 10)`, food placed at
`(21, 10)` by the random samples `[20, 9]`. -/
def ceG1Setup : GameState := (Setup initialState [20, 9]).1

/-- First playthrough, after pressing Right and one tick: the snake eats the
food at `(21, 10)`, grows to `nTail = 1`, and new food lands at `(23, 10)`. -/
def ceG1Eat : GameState := (Logic (InputKeys ceG1Setup [.KRight]) [22, 9]).1

/-- One further tick: the advance writes the old head `(21, 10)` into tail
slot 0, so slot 0 now holds a real position. -/
def ceG1Move : GameState := (Logic (InputKeys ceG1Eat []) []).1

/-- The player quits: `gameOver` is set by the `q` key. -/
def ceG1Quit : GameState := InputKeys ceG1Move [.KQuit]

/-- The restart: `Setup` resets counters and places food at `(21, 10)` again,
but leaves the stale `(21, 10)` in tail slot 0. -/
def ceG2Setup : GameState := (Setup ceG1Quit [20, 9]).1

/-- Second playthrough, after pressing Right and one tick: the snake eats at
`(21, 10)` and grows, so the stale slot 0 — still `(21, 10)` — becomes a
counted tail slot equal to the head, with the game not over. -/
def ceStale : GameState := (Logic (InputKeys ceG2Setup [.KRight]) [0, 0]).1

theorem getD_set_self {α : Type} (l : List α) (i : Nat) (x d : α) (h : i < l.length) :
    (l.set i x).getD i d = x := by
  rw [List.getD_eq_getElem?_getD, List.getElem?_set_eq_of_lt x h]
  rfl

theorem getD_set_ne {α : Type} (l : List α) {i j : Nat} (x d : α) (h : i ≠ j) :
    (l.set i x).getD j d = l.getD j d := by
  rw [List.getD_eq_getElem?_getD, List.getElem?_set_ne h, ← List.getD_eq_getElem?_getD]

theorem getD_replicate_zero (n i : Nat) :
    (List.replicate n ((0 : Int), (0 : Int))).getD i (0, 0) = (0, 0) := by
  rw [List.getD_eq_getElem?_getD, List.getElem?_replicate]
  split <;> rfl

theorem shiftDown_length (a : List (Int × Int)) (k : Nat) :
    (shiftDown a k).length = a.length := by
  induction k generalizing a with
  | zero => rfl
  | succ k ih => rw [shiftDown, ih, List.length_set]

theorem shiftDown_getD_high (a : List (Int × Int)) (k i : Nat) (h : k < i) :
    (shiftDown a k).getD i (0, 0) = a.getD i (0, 0) := by
  induction k generalizing a with
  | zero => rfl
  | succ k ih =>
    rw [shiftDown, ih _ (by omega), getD_set_ne _ _ _ (by omega)]

theorem shiftDown_getD (a : List (Int × Int)) (k : Nat) (hk : k < a.length) (i : Nat) :
    (shiftDown a k).getD i (0, 0) =
      if 1 ≤ i ∧ i ≤ k then a.getD (i - 1) (0, 0) else a.getD i (0, 0) := by
  induction k generalizing a with
  | zero =>
    rw [if_neg (by omega)]
    rfl
  | succ k ih =>
    rw [shiftDown, ih _ (by rw [List.length_set]; omega)]
    by_cases h1 : 1 ≤ i ∧ i ≤ k
    · rw [if_pos h1, if_pos (by omega), getD_set_ne _ _ _ (by omega)]
    · by_cases h2 : i = k + 1
      · subst h2
        rw [if_neg h1, if_pos (by omega), getD_set_self _ _ _ _ hk]
        simp
      · rw [if_neg h1, if_neg (by omega), getD_set_ne _ _ _ (by omega)]

theorem shiftedTail_length (s : GameState) :
    (shiftedTail s).length = s.tail.length := by
  unfold shiftedTail
  split
  · rw [List.length_set, shiftDown_length]
  · rfl

theorem shiftedTail_getD_zero (s : GameState) (h0 : 0 < s.nTail)
    (hcap : s.nTail ≤ s.tail.length) :
    (shiftedTail s).getD 0 (0, 0) = (s.headX, s.headY) := by
  unfold shiftedTail
  rw [if_pos h0]
  exact getD_set_self _ _ _ _ (by rw [shiftDown_length]; omega)

theorem shiftedTail_getD_mid (s : GameState) (i : Nat) (h1 : 1 ≤ i)
    (h2 : i < s.nTail) (hcap : s.nTail ≤ s.tail.length) :
    (shiftedTail s).getD i (0, 0) = s.tail.getD (i - 1) (0, 0) := by
  unfold shiftedTail
  rw [if_pos (by omega), getD_set_ne _ _ _ (by omega),
    shiftDown_getD _ _ (by omega), if_pos (by omega)]

theorem shiftedTail_getD_high (s : GameState) (i : Nat) (h : s.nTail ≤ i) :
    (shiftedTail s).getD i (0, 0) = s.tail.getD i (0, 0) := by
  unfold shiftedTail
  split
  · next h0 =>
    rw [getD_set_ne _ _ _ (by omega), shiftDown_getD_high _ _ _ (by omega)]
  · rfl

theorem selfCollides_zero (tl : List (Int × Int)) (hx hy : Int) :
    selfCollides 0 tl hx hy = false := rfl

theorem selfCollides_succ (n : Nat) (tl : List (Int × Int)) (hx hy : Int) :
    selfCollides (n + 1) tl hx hy =
      (selfCollides n tl hx hy ||
        (((tl.getD n (0, 0)).1 == hx) && ((tl.getD n (0, 0)).2 == hy))) := by
  unfold selfCollides
  rw [List.range_succ, List.any_append]
  simp

theorem selfCollides_congr (n : Nat) (t1 t2 : List (Int × Int)) (hx hy : Int)
    (h : ∀ i, i < n → t1.getD i (0, 0) = t2.getD i (0, 0)) :
    selfCollides n t1 hx hy = selfCollides n t2 hx hy := by
  induction n with
  | zero => rfl
  | succ n ih =>
    rw [selfCollides_succ, selfCollides_succ, ih (fun i hi => h i (by omega)),
      h n (by omega)]

theorem wrapX_eq (x : Int) :
    wrapX x = if 40 < x then 1 else if x < 1 then 40 else x := by
  simp only [wrapX]
  split_ifs <;> omega

theorem wrapY_eq (y : Int) :
    wrapY y = if 20 < y then 1 else if y < 1 then 20 else y := by
  simp only [wrapY]
  split_ifs <;> omega

theorem wrapX_range (x : Int) : 1 ≤ wrapX x ∧ wrapX x ≤ 40 := by
  simp only [wrapX]
  split_ifs <;> omega

theorem wrapY_range (y : Int) : 1 ≤ wrapY y ∧ wrapY y ≤ 20 := by
  simp only [wrapY]
  split_ifs <;> omega

theorem newHead_range (s : GameState) :
    1 ≤ (newHead s).1 ∧ (newHead s).1 ≤ 40 ∧
    1 ≤ (newHead s).2 ∧ (newHead s).2 ≤ 20 := by
  exact ⟨(wrapX_range _).1, (wrapX_range _).2, (wrapY_range _).1, (wrapY_range _).2⟩

theorem Logic_stop (s : GameState) (rng : List Nat) (h : s.dir = .STOP) :
    Logic s rng = (s, rng) := by
  simp [Logic, h]

theorem Logic_collide (s : GameState) (rng : List Nat) (h1 : s.dir ≠ .STOP)
    (h2 : selfCollides s.nTail (shiftedTail s) (newHead s).1 (newHead s).2 = true) :
    Logic s rng = ({ s with
      tail := shiftedTail s
      headX := (newHead s).1
      headY := (newHead s).2
      gameOver := true }, rng) := by
  simp [Logic, h1, h2]

theorem Logic_eat (s : GameState) (rng : List Nat) (h1 : s.dir ≠ .STOP)
    (h2 : selfCollides s.nTail (shiftedTail s) (newHead s).1 (newHead s).2 = false)
    (h3 : (((newHead s).1 == s.foodX) && ((newHead s).2 == s.foodY)) = true) :
    Logic s rng = PlaceFood { s with
      tail := shiftedTail s
      headX := (newHead s).1
      headY := (newHead s).2
      score := s.score + 10
      nTail := s.nTail + 1 } rng := by
  simp [Logic, h1, h2, h3]

theorem Logic_move (s : GameState) (rng : List Nat) (h1 : s.dir ≠ .STOP)
    (h2 : selfCollides s.nTail (shiftedTail s) (newHead s).1 (newHead s).2 = false)
    (h3 : (((newHead s).1 == s.foodX) && ((newHead s).2 == s.foodY)) = false) :
    Logic s rng = ({ s with
      tail := shiftedTail s
      headX := (newHead s).1
      headY := (newHead s).2 }, rng) := by
  simp [Logic, h1, h2, h3]

theorem PlaceFood_gameOver (s : GameState) (rng : List Nat) :
    (PlaceFood s rng).1.gameOver = s.gameOver := rfl

theorem PlaceFood_score (s : GameState) (rng : List Nat) :
    (PlaceFood s rng).1.score = s.score := rfl

theorem PlaceFood_headX (s : GameState) (rng : List Nat) :
    (PlaceFood s rng).1.headX = s.headX := rfl

theorem PlaceFood_headY (s : GameState) (rng : List Nat) :
    (PlaceFood s rng).1.headY = s.headY := rfl

theorem PlaceFood_tail (s : GameState) (rng : List Nat) :
    (PlaceFood s rng).1.tail = s.tail := rfl

theorem PlaceFood_nTail (s : GameState) (rng : List Nat) :
    (PlaceFood s rng).1.nTail = s.nTail := rfl

theorem Logic_moved_fields (s : GameState) (rng : List Nat) (h1 : s.dir ≠ .STOP) :
    (Logic s rng).1.headX = (newHead s).1 ∧
    (Logic s rng).1.headY = (newHead s).2 ∧
    (Logic s rng).1.tail = shiftedTail s := by
  cases h2 : selfCollides s.nTail (shiftedTail s) (newHead s).1 (newHead s).2 with
  | true => rw [Logic_collide s rng h1 h2]; exact ⟨rfl, rfl, rfl⟩
  | false =>
    cases h3 : (((newHead s).1 == s.foodX) && ((newHead s).2 == s.foodY)) with
    | true => rw [Logic_eat s rng h1 h2 h3]; exact ⟨rfl, rfl, rfl⟩
    | false => rw [Logic_move s rng h1 h2 h3]; exact ⟨rfl, rfl, rfl⟩

theorem InputKey_keeps (s : GameState) (k : Key) :
    (InputKey s k).score = s.score ∧ (InputKey s k).nTail = s.nTail ∧
    (InputKey s k).headX = s.headX ∧ (InputKey s k).headY = s.headY ∧
    (InputKey s k).tail = s.tail ∧ (InputKey s k).foodX = s.foodX ∧
    (InputKey s k).foodY = s.foodY := by
  cases k <;> unfold InputKey <;> split_ifs <;>
    exact ⟨rfl, rfl, rfl, rfl, rfl, rfl, rfl⟩

theorem InputKey_gameOver (s : GameState) (k : Key)
    (h : (InputKey s k).gameOver = false) : s.gameOver = false := by
  cases k <;> unfold InputKey at h
  case KQuit => exact absurd h (by simp)
  all_goals split_ifs at h <;> exact h

theorem sampleAt_tail_tail (rng : List Nat) (j : Nat) :
    sampleAt rng.tail.tail j = sampleAt rng (j + 1) := by
  have key : (rng.tail.tail).drop (2 * j) = rng.drop (2 * (j + 1)) := by
    rw [← List.drop_one (l := rng.tail), ← List.drop_one (l := rng),
      List.drop_drop, List.drop_drop]
    congr 1
    omega
  unfold sampleAt
  rw [key]

theorem placeFoodLoop_spec (s : GameState) :
    ∀ fuel attempts rng, attempts + fuel = 801 → attempts ≤ 800 →
    (attempts + 1 ≤ (placeFoodLoop s fuel rng attempts).2.2 ∧
     (placeFoodLoop s fuel rng attempts).2.2 ≤ 801) ∧
    (placeFoodLoop s fuel rng attempts).1 =
      sampleAt rng ((placeFoodLoop s fuel rng attempts).2.2 - attempts - 1) ∧
    ((placeFoodLoop s fuel rng attempts).2.2 ≤ 800 →
      isPositionOnSnake s (placeFoodLoop s fuel rng attempts).1.1
        (placeFoodLoop s fuel rng attempts).1.2 = false) := by
  intro fuel
  induction fuel with
  | zero => intro attempts rng h1 h2; omega
  | succ fuel ih =>
    intro attempts rng h1 h2
    simp only [placeFoodLoop]
    split_ifs with hb hocc <;> try simp only []
    · refine ⟨⟨by omega, by omega⟩, ?_, by omega⟩
      simp [sampleAt]
    · have hr := ih (attempts + 1) rng.tail.tail (by omega) (by omega)
      obtain ⟨⟨ih1, ih2⟩, ih3, ih4⟩ := hr
      refine ⟨⟨by omega, by omega⟩, ?_, ih4⟩
      rw [ih3]
      have harith :
          (placeFoodLoop s fuel rng.tail.tail (attempts + 1)).2.2 - (attempts + 1) - 1 + 1 =
          (placeFoodLoop s fuel rng.tail.tail (attempts + 1)).2.2 - attempts - 1 := by omega
      rw [← harith, ← sampleAt_tail_tail]
    · refine ⟨⟨by omega, by omega⟩, ?_, fun _ => ?_⟩
      · simp [sampleAt]
      · simpa using hocc

theorem InputKeys_keeps (s : GameState) (ks : List Key) :
    (InputKeys s ks).score = s.score ∧ (InputKeys s ks).nTail = s.nTail ∧
    (InputKeys s ks).headX = s.headX ∧ (InputKeys s ks).headY = s.headY ∧
    (InputKeys s ks).tail = s.tail ∧ (InputKeys s ks).foodX = s.foodX ∧
    (InputKeys s ks).foodY = s.foodY := by
  induction ks generalizing s with
  | nil => exact ⟨rfl, rfl, rfl, rfl, rfl, rfl, rfl⟩
  | cons k ks ih =>
    have h1 := InputKey_keeps s k
    have h2 := ih (InputKey s k)
    unfold InputKeys at h2 ⊢
    rw [List.foldl_cons]
    exact ⟨h2.1.trans h1.1, (h2.2.1).trans h1.2.1,
      (h2.2.2.1).trans h1.2.2.1, (h2.2.2.2.1).trans h1.2.2.2.1,
      (h2.2.2.2.2.1).trans h1.2.2.2.2.1,
      (h2.2.2.2.2.2.1).trans h1.2.2.2.2.2.1,
      (h2.2.2.2.2.2.2).trans h1.2.2.2.2.2.2⟩

theorem InputKeys_gameOver (s : GameState) (ks : List Key)
    (h : (InputKeys s ks).gameOver = false) : s.gameOver = false := by
  induction ks generalizing s with
  | nil => exact h
  | cons k ks ih =>
    unfold InputKeys at h
    rw [List.foldl_cons] at h
    exact InputKey_gameOver s k (ih (InputKey s k) h)

theorem Logic_score_nTail (s : GameState) (rng : List Nat)
    (h : s.score = s.nTail * 10) :
    (Logic s rng).1.score = (Logic s rng).1.nTail * 10 := by
  by_cases hd : s.dir = .STOP
  · rw [Logic_stop s rng hd]; exact h
  · cases hcol : selfCollides s.nTail (shiftedTail s) (newHead s).1 (newHead s).2 with
    | true => rw [Logic_collide s rng hd hcol]; exact h
    | false =>
      cases heat : (((newHead s).1 == s.foodX) && ((newHead s).2 == s.foodY)) with
      | true =>
        rw [Logic_eat s rng hd hcol heat]
        show s.score + 10 = (s.nTail + 1) * 10
        omega
      | false => rw [Logic_move s rng hd hcol heat]; exact h

theorem reachable_score_ratio (s : GameState) (h : Reachable s) :
    s.score = s.nTail * 10 := by
  induction h with
  | start rng => rfl
  | restart s rng hr hg ih => rfl
  | inputs s ks hr hg ih =>
    rw [(InputKeys_keeps s ks).1, (InputKeys_keeps s ks).2.1]
    exact ih
  | tick s ks rng hr hg ih =>
    refine Logic_score_nTail _ _ ?_
    rw [(InputKeys_keeps s ks).1, (InputKeys_keeps s ks).2.1]
    exact ih

theorem InputKey_invC1 (s : GameState) (k : Key) (h : InvC1 s) :
    InvC1 (InputKey s k) := by
  obtain ⟨hh, hz, hc⟩ := h
  have hk := InputKey_keeps s k
  refine ⟨?_, ?_, ?_⟩
  · rw [hk.2.2.1, hk.2.2.2.1]
    exact hh
  · intro i hi
    rw [hk.2.1] at hi
    rw [hk.2.2.2.2.1]
    exact hz i hi
  · intro hg
    rw [hk.2.1, hk.2.2.2.2.1, hk.2.2.1, hk.2.2.2.1]
    exact hc (InputKey_gameOver s k hg)

theorem InputKeys_invC1 (s : GameState) (ks : List Key) (h : InvC1 s) :
    InvC1 (InputKeys s ks) := by
  induction ks generalizing s with
  | nil => exact h
  | cons k ks ih =>
    unfold InputKeys
    rw [List.foldl_cons]
    exact ih (InputKey s k) (InputKey_invC1 s k h)

theorem Logic_invC1 (s : GameState) (rng : List Nat) (h : InvC1 s) :
    InvC1 (Logic s rng).1 := by
  obtain ⟨hh, hz, hc⟩ := h
  by_cases hd : s.dir = .STOP
  · rw [Logic_stop s rng hd]
    exact ⟨hh, hz, hc⟩
  · have hnh := newHead_range s
    cases hcol : selfCollides s.nTail (shiftedTail s) (newHead s).1 (newHead s).2 with
    | true =>
      rw [Logic_collide s rng hd hcol]
      refine ⟨⟨hnh.1, hnh.2.1, hnh.2.2.1, hnh.2.2.2⟩, ?_, ?_⟩
      · intro i hi
        exact (shiftedTail_getD_high s i hi).trans (hz i hi)
      · intro hg
        exact absurd hg (by simp)
    | false =>
      cases heat : (((newHead s).1 == s.foodX) && ((newHead s).2 == s.foodY)) with
      | true =>
        rw [Logic_eat s rng hd hcol heat]
        refine ⟨⟨hnh.1, hnh.2.1, hnh.2.2.1, hnh.2.2.2⟩, ?_, ?_⟩
        · intro i hi
          have hi2 : s.nTail + 1 ≤ i := hi
          exact (shiftedTail_getD_high s i (by omega)).trans (hz i (by omega))
        · intro hg
          show selfCollides (s.nTail + 1) (shiftedTail s) (newHead s).1 (newHead s).2 = false
          rw [selfCollides_succ, hcol,
            shiftedTail_getD_high s s.nTail (le_refl _), hz s.nTail (le_refl _)]
          have hx0 : (((0 : Int), (0 : Int)).1 == (newHead s).1) = false :=
            beq_eq_false_iff_ne.mpr (by have := hnh.1; simp only []; omega)
          simp [hx0]
      | false =>
        rw [Logic_move s rng hd hcol heat]
        refine ⟨⟨hnh.1, hnh.2.1, hnh.2.2.1, hnh.2.2.2⟩, ?_, ?_⟩
        · intro i hi
          exact (shiftedTail_getD_high s i hi).trans (hz i hi)
        · intro hg
          exact hcol

theorem setup_initial_invC1 (rng : List Nat) : InvC1 (Setup initialState rng).1 := by
  refine ⟨⟨?_, ?_, ?_, ?_⟩, ?_, ?_⟩
  · show (1 : Int) ≤ 20
    decide
  · show (20 : Int) ≤ 40
    decide
  · show (1 : Int) ≤ 10
    decide
  · show (10 : Int) ≤ 20
    decide
  · intro i hi
    exact getD_replicate_zero 100 i
  · intro hg
    rfl

theorem reachableFirst_invC1 (s : GameState) (h : ReachableFirst s) : InvC1 s := by
  induction h with
  | start rng => exact setup_initial_invC1 rng
  | inputs s ks hr hg ih => exact InputKeys_invC1 s ks ih
  | tick s ks rng hr hg ih => exact Logic_invC1 _ rng (InputKeys_invC1 s ks ih)

/-- Claim C1 (amended): during the first playthrough (no restart), every
reachable state with `gameOver` unset has its head distinct from all counted
tail slots; the tick that detects a self-collision sets `gameOver`, so the
overlap state it produces is excluded by the `gameOver = false` hypothesis.
Across restarts the original claim fails (see the counterexample): `Setup`
keeps the old tail arrays, and the tick that grows the tail counts a stale
slot that can equal the head while the game is not over. -/
theorem c1_theorem (s : GameState) (h : ReachableFirst s) (hg : s.gameOver = false) :
    selfCollides s.nTail s.tail s.headX s.headY = false :=
  (reachableFirst_invC1 s h).2.2 hg

/-- Witness for C1: the state right after the initial `Setup` satisfies the
invariant. -/
theorem c1_witness :
    selfCollides (Setup initialState []).1.nTail (Setup initialState []).1.tail
      (Setup initialState []).1.headX (Setup initialState []).1.headY = false :=
  c1_theorem _ (ReachableFirst.start []) (by decide)

/-- Counterexample to C1 as stated: a reachable state (eat, advance, quit,
restart, eat again) whose head coincides with counted tail slot 0 while
`gameOver` is false — the tick that produced it performed no `GameOver`
transition.  The stale `(21, 10)` left by the first playthrough becomes a
counted slot the moment the snake grows. -/
theorem c1_counterexample :
    Reachable ceStale ∧ ceStale.gameOver = false ∧
    selfCollides ceStale.nTail ceStale.tail ceStale.headX ceStale.headY = true := by
  refine ⟨?_, by decide, by decide⟩
  have h0 : Reachable ceG1Setup := Reachable.start [20, 9]
  have h1 : Reachable ceG1Eat :=
    Reachable.tick ceG1Setup [.KRight] [22, 9] h0 (by decide)
  have h2 : Reachable ceG1Move :=
    Reachable.tick ceG1Eat [] [] h1 (by decide)
  have h3 : Reachable ceG1Quit :=
    Reachable.inputs ceG1Move [.KQuit] h2 (by decide)
  have h4 : Reachable ceG2Setup :=
    Reachable.restart ceG1Quit [20, 9] h3 (by decide)
  exact Reachable.tick ceG2Setup [.KRight] [0, 0] h4 (by decide)

/-- Claim C2: in every reachable game state (after `Setup`, input drains,
restarts and any number of ticks), the tail length times 10 equals the
score. -/
theorem c2_theorem (s : GameState) (h : Reachable s) : s.nTail * 10 = s.score :=
  (reachable_score_ratio s h).symm

/-- Witness for C2: the invariant instantiated at the state after the
initial `Setup`. -/
theorem c2_witness :
    (Setup initialState [5, 5]).1.nTail * 10 = (Setup initialState [5, 5]).1.score :=
  c2_theorem _ (Reachable.start [5, 5])

/-- Claim C3: if, after the head moves and the tail shifts, the new head
equals a counted tail slot, the tick sets `gameOver` and returns early:
score, tail length and food are unchanged and no random samples are
consumed, even when the new head is on the food. -/
theorem c3_theorem (s : GameState) (rng : List Nat) (h1 : s.dir ≠ .STOP)
    (h2 : selfCollides s.nTail (shiftedTail s) (newHead s).1 (newHead s).2 = true) :
    (Logic s rng).1.gameOver = true ∧
    (Logic s rng).1.score = s.score ∧
    (Logic s rng).1.nTail = s.nTail ∧
    (Logic s rng).1.foodX = s.foodX ∧
    (Logic s rng).1.foodY = s.foodY ∧
    (Logic s rng).2 = rng := by
  rw [Logic_collide s rng h1 h2]
  exact ⟨rfl, rfl, rfl, rfl, rfl, rfl⟩

/-- Witness for C3: a colliding tick whose target cell also carries the
food still leaves score, tail length and food untouched. -/
theorem c3_witness :
    (Logic wState3 []).1.gameOver = true ∧
    (Logic wState3 []).1.score = wState3.score ∧
    (Logic wState3 []).1.nTail = wState3.nTail ∧
    (Logic wState3 []).1.foodX = wState3.foodX ∧
    (Logic wState3 []).1.foodY = wState3.foodY ∧
    (Logic wState3 []).2 = [] :=
  c3_theorem wState3 [] (by decide) (by decide)

/-- Claim C4: within the array capacity, a tick with the game in motion
moves every tail slot `i` (for `1 ≤ i < nTail`) to the value of slot `i-1`,
stores the pre-advance head in slot 0, leaves slots at index `≥ nTail`
unchanged, and only then sets the head to the wrapped new position; an empty
tail is not written at all. -/
theorem c4_theorem (s : GameState) (rng : List Nat) (hdir : s.dir ≠ .STOP)
    (hcap : s.nTail ≤ s.tail.length) :
    ((Logic s rng).1.headX = (newHead s).1 ∧ (Logic s rng).1.headY = (newHead s).2) ∧
    (s.nTail = 0 → (Logic s rng).1.tail = s.tail) ∧
    (0 < s.nTail →
      (Logic s rng).1.tail.getD 0 (0, 0) = (s.headX, s.headY) ∧
      (∀ i, 1 ≤ i → i < s.nTail →
        (Logic s rng).1.tail.getD i (0, 0) = s.tail.getD (i - 1) (0, 0)) ∧
      (∀ i, s.nTail ≤ i →
        (Logic s rng).1.tail.getD i (0, 0) = s.tail.getD i (0, 0))) := by
  obtain ⟨hx, hy, ht⟩ := Logic_moved_fields s rng hdir
  refine ⟨⟨hx, hy⟩, ?_, ?_⟩
  · intro h0
    rw [ht]
    unfold shiftedTail
    rw [if_neg (by omega)]
  · intro h0
    refine ⟨?_, ?_, ?_⟩
    · rw [ht]
      exact shiftedTail_getD_zero s h0 hcap
    · intro i hi1 hi2
      rw [ht]
      exact shiftedTail_getD_mid s i hi1 hi2 hcap
    · intro i hi
      rw [ht]
      exact shiftedTail_getD_high s i hi

/-- Witness for C4: a two-segment snake captures its old head in slot 0
while the head moves on. -/
theorem c4_witness :
    (Logic wState4 []).1.tail.getD 0 (0, 0) = (wState4.headX, wState4.headY) ∧
    (Logic wState4 []).1.headX = (newHead wState4).1 :=
  ⟨((c4_theorem wState4 [] (by decide) (by decide)).2.2 (by decide)).1,
   (c4_theorem wState4 [] (by decide) (by decide)).1.1⟩

/-- Claim C5 (amended): the food-placement loop returns an unoccupied
position whenever it stops before exhausting its attempt cap.  The claim as
stated — an unoccupied result for *every* random-sample sequence whenever a
free cell exists — fails: a sequence whose first 801 samples all hit the
snake makes the loop give up and return an occupied cell (see the
counterexample). -/
theorem c5_theorem (s : GameState) (rng : List Nat)
    (h : (placeFoodLoop s 801 rng 0).2.2 ≤ 800) :
    isPositionOnSnake s (placeFoodLoop s 801 rng 0).1.1
      (placeFoodLoop s 801 rng 0).1.2 = false :=
  (placeFoodLoop_spec s 801 0 rng rfl (by omega)).2.2 h

/-- Witness for C5: with head at `(1, 1)` and sample `(4, 4)`, the loop
stops after one attempt and the result is off the snake. -/
theorem c5_witness :
    isPositionOnSnake cexOccupied (placeFoodLoop cexOccupied 801 [3, 3] 0).1.1
      (placeFoodLoop cexOccupied 801 [3, 3] 0).1.2 = false :=
  c5_theorem cexOccupied [3, 3] (by decide)

set_option maxRecDepth 40000 in
/-- Counterexample to C5 as stated: the board has a free cell (`(2, 2)` is
not on the snake), yet on the all-zero sample stream — every sample being the
occupied `(1, 1)` — food placement returns a position on the snake. -/
theorem c5_counterexample :
    isPositionOnSnake cexOccupied 2 2 = false ∧
    isPositionOnSnake cexOccupied (placeFoodLoop cexOccupied 801 [] 0).1.1
      (placeFoodLoop cexOccupied 801 [] 0).1.2 = true := by
  decide

/-- Claim C6 (amended): the food-placement loop always stops, after at most
`WIDTH*HEIGHT + 1 = 801` sampling attempts (not `WIDTH*HEIGHT`: the C test
`attempts > WIDTH*HEIGHT` breaks only after the 801st sample), and the
position it returns is exactly the sample drawn on its final attempt —
possibly occupied when the cap was hit. -/
theorem c6_theorem (s : GameState) (rng : List Nat) :
    1 ≤ (placeFoodLoop s 801 rng 0).2.2 ∧
    (placeFoodLoop s 801 rng 0).2.2 ≤ 801 ∧
    (placeFoodLoop s 801 rng 0).1 =
      sampleAt rng ((placeFoodLoop s 801 rng 0).2.2 - 1) := by
  have h := placeFoodLoop_spec s 801 0 rng rfl (by omega)
  refine ⟨by have := h.1.1; omega, h.1.2, ?_⟩
  have h2 := h.2.1
  simpa using h2

set_option maxRecDepth 40000 in
/-- Counterexample to C6 as stated: on the all-zero sample stream against a
head at `(1, 1)`, the loop performs 801 sampling attempts, exceeding the
claimed `WIDTH*HEIGHT = 800` bound by one. -/
theorem c6_counterexample : (placeFoodLoop cexFull 801 [] 0).2.2 = 801 := by
  decide

/-- Claim C7: a directional key overwrites the stored direction exactly
when it is not that direction's exact reverse: Left is ignored while the
stored direction is Right, Right while Left, Up while Down, Down while Up;
any other combination — including a repeat of the current direction and any
key while the direction is STOP — takes effect immediately. -/
theorem c7_theorem (s : GameState) :
    (InputKey s .KLeft).dir = (if s.dir = .RIGHT then s.dir else .LEFT) ∧
    (InputKey s .KRight).dir = (if s.dir = .LEFT then s.dir else .RIGHT) ∧
    (InputKey s .KUp).dir = (if s.dir = .DOWN then s.dir else .UP) ∧
    (InputKey s .KDown).dir = (if s.dir = .UP then s.dir else .DOWN) := by
  cases hd : s.dir <;> simp [InputKey, hd]

/-- Claim C8: per-axis wraparound — a coordinate above the maximum becomes
1, below 1 becomes the maximum (40 horizontally, 20 vertically), anything
else is unchanged; hence a head at `(40, y)` moving Right ends the tick at
`(1, y)`, a head at `(1, y)` moving Left at `(40, y)`, and symmetrically a
head at `(x, 20)` moving Down ends at `(x, 1)` and at `(x, 1)` moving Up at
`(x, 20)`. -/
theorem c8_theorem :
    (∀ x : Int, wrapX x = if 40 < x then 1 else if x < 1 then 40 else x) ∧
    (∀ y : Int, wrapY y = if 20 < y then 1 else if y < 1 then 20 else y) ∧
    (∀ (s : GameState) (rng : List Nat), s.dir = .RIGHT → s.headX = 40 →
      1 ≤ s.headY → s.headY ≤ 20 →
      (Logic s rng).1.headX = 1 ∧ (Logic s rng).1.headY = s.headY) ∧
    (∀ (s : GameState) (rng : List Nat), s.dir = .LEFT → s.headX = 1 →
      1 ≤ s.headY → s.headY ≤ 20 →
      (Logic s rng).1.headX = 40 ∧ (Logic s rng).1.headY = s.headY) ∧
    (∀ (s : GameState) (rng : List Nat), s.dir = .DOWN → s.headY = 20 →
      1 ≤ s.headX → s.headX ≤ 40 →
      (Logic s rng).1.headY = 1 ∧ (Logic s rng).1.headX = s.headX) ∧
    (∀ (s : GameState) (rng : List Nat), s.dir = .UP → s.headY = 1 →
      1 ≤ s.headX → s.headX ≤ 40 →
      (Logic s rng).1.headY = 20 ∧ (Logic s rng).1.headX = s.headX) := by
  refine ⟨wrapX_eq, wrapY_eq, ?_, ?_, ?_, ?_⟩ <;>
    intro s rng hdir hcoord hlo hhi <;>
    obtain ⟨hx, hy, -⟩ :=
      Logic_moved_fields s rng (by rw [hdir]; intro hcon; cases hcon) <;>
    rw [hx, hy] <;>
    constructor <;>
    simp [newHead, newHeadRaw, hdir, hcoord, wrapX_eq, wrapY_eq] <;>
    split_ifs <;>
    omega

/-- Witness for C8: a head at `(40, 7)` moving Right wraps to `(1, 7)`. -/
theorem c8_witness :
    (Logic wState8 []).1.headX = 1 ∧ (Logic wState8 []).1.headY = wState8.headY :=
  c8_theorem.2.2.1 wState8 [] rfl rfl (by decide) (by decide)

/-- Claim C9 (amended): tail slots beyond the populated region never affect
the same tick's score, game-over outcome or tail length — the collision scan
only reads slots below `nTail`, all rewritten by the shift before the scan.
The claim as stated — no observable effect at all — fails: the tick that
grows the snake runs food placement with `nTail` already incremented, so the
freshly counted, not yet advanced slot participates in the occupancy test
and can change where food lands (see the counterexample). -/
theorem c9_theorem (s : GameState) (t2 : List (Int × Int)) (rng : List Nat)
    (hcap : s.nTail ≤ s.tail.length) (hlen : t2.length = s.tail.length)
    (hagree : ∀ i, i < s.nTail → t2.getD i (0, 0) = s.tail.getD i (0, 0)) :
    (Logic { s with tail := t2 } rng).1.score = (Logic s rng).1.score ∧
    (Logic { s with tail := t2 } rng).1.gameOver = (Logic s rng).1.gameOver ∧
    (Logic { s with tail := t2 } rng).1.nTail = (Logic s rng).1.nTail := by
  by_cases hd : s.dir = .STOP
  · rw [Logic_stop s rng hd, Logic_stop { s with tail := t2 } rng hd]
    exact ⟨rfl, rfl, rfl⟩
  · have hsh : ∀ i, i < s.nTail →
        (shiftedTail { s with tail := t2 }).getD i (0, 0) =
        (shiftedTail s).getD i (0, 0) := by
      intro i hi
      by_cases h0 : i = 0
      · subst h0
        rw [shiftedTail_getD_zero { s with tail := t2 } hi (by show s.nTail ≤ t2.length; omega),
          shiftedTail_getD_zero s hi hcap]
      · rw [shiftedTail_getD_mid { s with tail := t2 } i (by omega) hi
            (by show s.nTail ≤ t2.length; omega),
          shiftedTail_getD_mid s i (by omega) hi hcap]
        exact hagree (i - 1) (by omega)
    have hcoll : selfCollides s.nTail (shiftedTail { s with tail := t2 })
        (newHead s).1 (newHead s).2 =
        selfCollides s.nTail (shiftedTail s) (newHead s).1 (newHead s).2 :=
      selfCollides_congr s.nTail _ _ _ _ hsh
    cases hcol : selfCollides s.nTail (shiftedTail s) (newHead s).1 (newHead s).2 with
    | true =>
      have hcq : selfCollides s.nTail (shiftedTail { s with tail := t2 })
          (newHead s).1 (newHead s).2 = true := by rw [hcoll]; exact hcol
      rw [Logic_collide s rng hd hcol, Logic_collide { s with tail := t2 } rng hd hcq]
      exact ⟨rfl, rfl, rfl⟩
    | false =>
      have hcq : selfCollides s.nTail (shiftedTail { s with tail := t2 })
          (newHead s).1 (newHead s).2 = false := by rw [hcoll]; exact hcol
      cases heat : (((newHead s).1 == s.foodX) && ((newHead s).2 == s.foodY)) with
      | true =>
        rw [Logic_eat s rng hd hcol heat, Logic_eat { s with tail := t2 } rng hd hcq heat]
        exact ⟨rfl, rfl, rfl⟩
      | false =>
        rw [Logic_move s rng hd hcol heat, Logic_move { s with tail := t2 } rng hd hcq heat]
        exact ⟨rfl, rfl, rfl⟩

/-- Witness for C9: the two states differing only in the unpopulated slot
agree on score, game-over flag and tail length after the tick. -/
theorem c9_witness :
    (Logic cexStaleB [4, 4, 0, 19]).1.score = (Logic cexStaleA [4, 4, 0, 19]).1.score ∧
    (Logic cexStaleB [4, 4, 0, 19]).1.gameOver =
      (Logic cexStaleA [4, 4, 0, 19]).1.gameOver ∧
    (Logic cexStaleB [4, 4, 0, 19]).1.nTail = (Logic cexStaleA [4, 4, 0, 19]).1.nTail :=
  c9_theorem cexStaleA ((1, 1) :: List.replicate 99 (0, 0)) [4, 4, 0, 19]
    (by decide) (by decide) (fun i hi => absurd hi (Nat.not_lt_zero i))

/-- Counterexample to C9 as stated: two states identical except in tail
slot 0, which lies beyond the populated region (`nTail = 0`), are driven by
the same random stream through an eating tick and end with food at `(1, 20)`
versus `(5, 5)` — the stale slot visibly steers food placement. -/
theorem c9_counterexample :
    cexStaleA.nTail = 0 ∧ cexStaleB.nTail = 0 ∧
    cexStaleA.headX = cexStaleB.headX ∧ cexStaleA.headY = cexStaleB.headY ∧
    cexStaleA.foodX = cexStaleB.foodX ∧ cexStaleA.foodY = cexStaleB.foodY ∧
    cexStaleA.score = cexStaleB.score ∧ cexStaleA.dir = cexStaleB.dir ∧
    (Logic cexStaleA [4, 4, 0, 19]).1.foodX = 1 ∧
    (Logic cexStaleA [4, 4, 0, 19]).1.foodY = 20 ∧
    (Logic cexStaleB [4, 4, 0, 19]).1.foodX = 5 ∧
    (Logic cexStaleB [4, 4, 0, 19]).1.foodY = 5 := by
  decide

/-- Claim C10: keys drained in one poll are each checked against the
direction stored at that moment, so the pending sequence Up-then-Left while
moving Right yields Left — a 180-degree turn relative to the last actual
movement within a single tick. -/
theorem c10_theorem (s : GameState) (h : s.dir = .RIGHT) :
    (InputKeys s [.KUp, .KLeft]).dir = .LEFT := by
  simp [InputKeys, List.foldl_cons, List.foldl_nil, InputKey, h]

/-- Witness for C10: the Up-then-Left drain on a snake moving Right. -/
theorem c10_witness : (InputKeys wState10 [.KUp, .KLeft]).dir = .LEFT :=
  c10_theorem wState10 rfl

end SnakeGame
